import Mathlib

/-!
# Verification of the client-side session/cart synchronization core

Shallow embedding of the Training-Angular client core:
* `AuthService.decodeTokenRoles` (src/app/core/services/auth.service.ts),
* `AuthStore` (the roles-aware store, src/unnamed/part_004; the copy at
  src/src/app/store/auth.store.ts is an earlier roles-less revision — the
  4-argument `setAuth` call in auth.service.ts only type-checks against the
  roles-aware one, so that is the live store),
* `AuthInterceptor` (src/app/core/interceptors/auth.interceptor.ts),
* `CartService` / `CartStore` (src/app/core/services/cart.service.ts,
  src/app/store/cart.store.ts).

JavaScript strings are modelled as `List Char` (`JStr`).  The browser
builtins the code relies on are embedded explicitly: `String.prototype.split`
with a one-character separator (`jsSplit`), `atob` as the WHATWG
forgiving-base64 decoder (`atobForgiving`), and `JSON.parse` /
`JSON.stringify` as an executable JSON parser and serializer over a `Json`
value type.  `sessionStorage` is modelled as a record of the four fixed keys
the store touches (`token`, `userId`, `email`, `roles`).
-/

/-- JavaScript string, modelled as a list of characters. -/
abbrev JStr := List Char

/-- `String.prototype.split` with a single-character separator and no limit:
`"a..b".split "." = ["a","","b"]`, `"abc".split "." = ["abc"]`,
`"".split "." = [""]`. -/
def jsSplit (sep : Char) : JStr → List JStr
  | [] => [[]]
  | c :: cs =>
    let r := jsSplit sep cs
    if c = sep then [] :: r
    else
      match r with
      | [] => [[c]]
      | h :: t => (c :: h) :: t

/-! ## WHATWG forgiving-base64 (`atob`) -/

/-- ASCII whitespace as stripped by forgiving-base64 decode
(TAB, LF, FF, CR, SPACE). -/
def isB64Ws (c : Char) : Bool :=
  c.toNat = 9 ∨ c.toNat = 10 ∨ c.toNat = 12 ∨ c.toNat = 13 ∨ c.toNat = 32

/-- Value of a standard base64 alphabet character (`A`–`Z`, `a`–`z`,
`0`–`9`, `+`, `/`). -/
def b64Val (c : Char) : Option Nat :=
  if 'A' ≤ c ∧ c ≤ 'Z' then some (c.toNat - 65)
  else if 'a' ≤ c ∧ c ≤ 'z' then some (c.toNat - 97 + 26)
  else if '0' ≤ c ∧ c ≤ '9' then some (c.toNat - 48 + 52)
  else if c = '+' then some 62
  else if c = '/' then some 63
  else none

/-- Reassemble bytes from 6-bit groups; a trailing group of two values
contributes one byte (top 8 of 12 bits), of three values two bytes
(top 16 of 18 bits), exactly as in WHATWG forgiving-base64 step 10. -/
def b64DecodeChunks : List Nat → List Nat
  | a :: b :: c :: d :: rest =>
    (a * 4 + b / 16) :: ((b % 16) * 16 + c / 4) :: ((c % 4) * 64 + d) ::
      b64DecodeChunks rest
  | [a, b] => [a * 4 + b / 16]
  | [a, b, c] => [a * 4 + b / 16, (b % 16) * 16 + c / 4]
  | _ => []

/-- Strip one or two trailing `=` characters when the length is a
multiple of four (forgiving-base64 step 2). -/
def b64StripPadding (data : JStr) : JStr :=
  if data.length % 4 = 0 then
    match data.reverse with
    | '=' :: '=' :: rest => rest.reverse
    | '=' :: rest => rest.reverse
    | _ => data
  else data

/-- Map a fallible function over a list, failing when any element fails. -/
def mapOption {α β : Type} (f : α → Option β) : List α → Option (List β)
  | [] => some []
  | a :: t =>
    match f a, mapOption f t with
    | some b, some bs => some (b :: bs)
    | _, _ => none

/-- Decode whitespace- and padding-stripped base64 data with the given
alphabet: fail when the length is `≡ 1 (mod 4)` or any character is outside
the alphabet, otherwise map the 6-bit groups to bytes, returned as
characters with code points `< 256`. -/
def b64DecodeCore (valFn : Char → Option Nat) (data : JStr) : Option JStr :=
  if data.length % 4 = 1 then none
  else
    match mapOption valFn data with
    | some vals => some ((b64DecodeChunks vals).map Char.ofNat)
    | none => none

/-- The browser builtin `atob`, per the WHATWG forgiving-base64 decode
algorithm: strip ASCII whitespace, strip permissible padding, then decode
with the standard alphabet. -/
def atobForgiving (input : JStr) : Option JStr :=
  b64DecodeCore b64Val (b64StripPadding (input.filter (fun c => !isB64Ws c)))

/-- Modelled from the spec: base64url decoding, as used by the claims'
notion of a "valid token" whose middle segment is base64url-encoded JSON
(the code itself uses `atob`, i.e. the standard alphabet).  Alphabet
`A`–`Z`, `a`–`z`, `0`–`9`, `-`, `_`; padding optional. -/
def b64UrlVal (c : Char) : Option Nat :=
  if 'A' ≤ c ∧ c ≤ 'Z' then some (c.toNat - 65)
  else if 'a' ≤ c ∧ c ≤ 'z' then some (c.toNat - 97 + 26)
  else if '0' ≤ c ∧ c ≤ '9' then some (c.toNat - 48 + 52)
  else if c = '-' then some 62
  else if c = '_' then some 63
  else none

/-- Modelled from the spec: strict base64url decode (optional padding,
no whitespace), producing the decoded bytes as characters. -/
def specBase64urlDecode (input : JStr) : Option JStr :=
  b64DecodeCore b64UrlVal (b64StripPadding input)

/-! ## JSON values (`JSON.parse` / `JSON.stringify`) -/

/-- A JavaScript JSON value.  Numbers keep their parsed lexical components
(sign, integer digits, fraction digits, exponent sign and digits); the
claims under verification never compare or format numeric values, so float
rounding/formatting is not modelled. -/
inductive Json where
  | null
  | bool (b : Bool)
  | num (neg : Bool) (intDigits fracDigits : List Char) (expNeg : Bool) (expDigits : List Char)
  | str (s : JStr)
  | arr (elems : List Json)
  | obj (members : List (JStr × Json))
deriving Repr

mutual

/-- Structural equality of JSON values; this is what JavaScript's
SameValueZero comparison computes on parsed JSON trees (numbers compared by
their lexical components — no claim compares numeric values). -/
def jsonEq : Json → Json → Bool
  | .null, .null => true
  | .bool a, .bool b => a == b
  | .num n1 i1 f1 e1 x1, .num n2 i2 f2 e2 x2 =>
    n1 == n2 && i1 == i2 && f1 == f2 && e1 == e2 && x1 == x2
  | .str a, .str b => a == b
  | .arr a, .arr b => jsonEqList a b
  | .obj a, .obj b => jsonEqMembers a b
  | _, _ => false

/-- Pointwise `jsonEq` on element lists. -/
def jsonEqList : List Json → List Json → Bool
  | [], [] => true
  | a :: l1, b :: l2 => jsonEq a b && jsonEqList l1 l2
  | _, _ => false

/-- Pointwise `jsonEq` on member lists. -/
def jsonEqMembers : List (JStr × Json) → List (JStr × Json) → Bool
  | [], [] => true
  | (k1, v1) :: l1, (k2, v2) :: l2 => k1 == k2 && jsonEq v1 v2 && jsonEqMembers l1 l2
  | _, _ => false

end

/-- JSON whitespace (space, TAB, LF, CR — note: not FF, unlike base64). -/
def isJsonWs (c : Char) : Bool :=
  c = ' ' ∨ c.toNat = 9 ∨ c.toNat = 10 ∨ c.toNat = 13

/-- Skip leading JSON whitespace. -/
def dropWs (s : JStr) : JStr := s.dropWhile isJsonWs

/-- Hexadecimal digit value (both cases accepted, as in `JSON.parse`). -/
def hexVal (c : Char) : Option Nat :=
  if '0' ≤ c ∧ c ≤ '9' then some (c.toNat - 48)
  else if 'a' ≤ c ∧ c ≤ 'f' then some (c.toNat - 87)
  else if 'A' ≤ c ∧ c ≤ 'F' then some (c.toNat - 55)
  else none

/-- Single-character JSON string escapes. -/
def escCharVal (c : Char) : Option Char :=
  if c = '"' then some '"'
  else if c = '\\' then some '\\'
  else if c = '/' then some '/'
  else if c = 'b' then some (Char.ofNat 8)
  else if c = 'f' then some (Char.ofNat 12)
  else if c = 'n' then some (Char.ofNat 10)
  else if c = 'r' then some (Char.ofNat 13)
  else if c = 't' then some (Char.ofNat 9)
  else none

/-- Parse the body of a JSON string literal (the opening `"` already
consumed), returning the decoded characters and the rest of the input.
`JSON.parse` admits any 16-bit code unit in a `\u` escape, including lone
surrogates; Unicode scalar values cannot represent surrogates (no claim
exercises them), so those escapes are mapped to failure here. -/
def parseStringBody : JStr → Option (JStr × JStr)
  | [] => none
  | '"' :: r => some ([], r)
  | '\\' :: 'u' :: h1 :: h2 :: h3 :: h4 :: r3 => do
    let v1 ← hexVal h1
    let v2 ← hexVal h2
    let v3 ← hexVal h3
    let v4 ← hexVal h4
    let n := v1 * 4096 + v2 * 256 + v3 * 16 + v4
    if n < 55296 ∨ 57343 < n then
      let (s, rest) ← parseStringBody r3
      some (Char.ofNat n :: s, rest)
    else none
  | '\\' :: e :: r2 => do
    let c' ← escCharVal e
    let (s, rest) ← parseStringBody r2
    some (c' :: s, rest)
  | c :: r =>
    if c.toNat < 32 then none
    else do
      let (s, rest) ← parseStringBody r
      some (c :: s, rest)

/-- Longest digit span of the input. -/
def digitSpan (s : JStr) : JStr × JStr :=
  (s.takeWhile Char.isDigit, s.dropWhile Char.isDigit)

/-- Parse a JSON number per the JSON grammar: `-? (0 | [1-9][0-9]*)
(. [0-9]+)? ([eE] [+-]? [0-9]+)?`.  A dangling `.` or exponent prefix is
left unconsumed; the junk then fails at the enclosing context, matching the
observable behaviour of `JSON.parse`. -/
def parseNumber (s : JStr) : Option (Json × JStr) := do
  let (neg, s1) := match s with
                   | '-' :: r => (true, r)
                   | _ => (false, s)
  let (ip, s2) ← match s1 with
    | '0' :: r => some (['0'], r)
    | c :: r =>
      if c.isDigit then
        let (ds, rest) := digitSpan r
        some (c :: ds, rest)
      else none
    | [] => none
  let (fp, s3) := match s2 with
    | '.' :: r =>
      (match digitSpan r with
       | ([], _) => (([] : List Char), s2)
       | (ds, rest) => (ds, rest))
    | _ => ([], s2)
  let (en, ep, s4) := match s3 with
    | e :: r =>
      if e = 'e' ∨ e = 'E' then
        let (sgn, r2) := match r with
                         | '+' :: rr => (false, rr)
                         | '-' :: rr => (true, rr)
                         | _ => (false, r)
        (match digitSpan r2 with
         | ([], _) => (false, ([] : List Char), s3)
         | (ds, rest) => (sgn, ds, rest))
      else (false, [], s3)
    | [] => (false, [], s3)
  some (.num neg ip fp en ep, s4)

mutual

/-- Parse one JSON value (leading whitespace skipped), fuelled; the
top-level wrapper `parseJson` supplies fuel `length + 1`, which every
recursion step (each consuming at least one input character) respects. -/
def parseValue : Nat → JStr → Option (Json × JStr)
  | 0, _ => none
  | fuel + 1, s =>
    match dropWs s with
    | 'n' :: 'u' :: 'l' :: 'l' :: r => some (.null, r)
    | 't' :: 'r' :: 'u' :: 'e' :: r => some (.bool true, r)
    | 'f' :: 'a' :: 'l' :: 's' :: 'e' :: r => some (.bool false, r)
    | '"' :: r => (parseStringBody r).map (fun p => (.str p.1, p.2))
    | '[' :: r =>
      (match dropWs r with
       | ']' :: r2 => some (.arr [], r2)
       | _ => (parseElems fuel r).map (fun p => (.arr p.1, p.2)))
    | c :: r =>
      if c = Char.ofNat 123 then
        (match dropWs r with
         | c2 :: r2 => if c2 = Char.ofNat 125 then some (.obj [], r2)
                       else (parseMembers fuel r).map (fun p => (.obj p.1, p.2))
         | [] => none)
      else if c = '-' ∨ c.isDigit then parseNumber (c :: r)
      else none
    | [] => none

/-- Parse the comma-separated elements of a non-empty JSON array up to and
including the closing `]`. -/
def parseElems : Nat → JStr → Option (List Json × JStr)
  | 0, _ => none
  | fuel + 1, s => do
    let (v, r) ← parseValue fuel s
    match dropWs r with
    | ',' :: r2 => do
      let (vs, r3) ← parseElems fuel r2
      some (v :: vs, r3)
    | ']' :: r2 => some ([v], r2)
    | _ => none

/-- Parse the members of a non-empty JSON object up to and including the
closing brace. -/
def parseMembers : Nat → JStr → Option (List (JStr × Json) × JStr)
  | 0, _ => none
  | fuel + 1, s =>
    match dropWs s with
    | '"' :: r => do
      let (k, r2) ← parseStringBody r
      match dropWs r2 with
      | ':' :: r3 => do
        let (v, r4) ← parseValue fuel r3
        match dropWs r4 with
        | ',' :: r5 => do
          let (ms, r6) ← parseMembers fuel r5
          some ((k, v) :: ms, r6)
        | c5 :: r5 =>
          if c5 = Char.ofNat 125 then some ([(k, v)], r5) else none
        | [] => none
      | _ => none
    | _ => none

end

/-- `JSON.parse`: parse one value and require only trailing whitespace. -/
def parseJson (s : JStr) : Option Json :=
  match parseValue (s.length + 1) s with
  | some (v, rest) => if dropWs rest = [] then some v else none
  | none => none

/-! ## `JSON.stringify` (for the values the store persists) -/

/-- Lowercase hexadecimal digit. -/
def hexDigitChar (n : Nat) : Char :=
  if n < 10 then Char.ofNat (48 + n) else Char.ofNat (87 + n)

/-- `JSON.stringify` escaping of one string character: `"` and `\` get
backslash escapes, the five control characters BS/TAB/LF/FF/CR their short
escapes, remaining control characters a `\u00XX` escape, everything else
passes through. -/
def escapeJsonChar (c : Char) : JStr :=
  if c = '"' then ['\\', '"']
  else if c = '\\' then ['\\', '\\']
  else if c.toNat = 8 then ['\\', 'b']
  else if c.toNat = 9 then ['\\', 't']
  else if c.toNat = 10 then ['\\', 'n']
  else if c.toNat = 12 then ['\\', 'f']
  else if c.toNat = 13 then ['\\', 'r']
  else if c.toNat < 32 then
    ['\\', 'u', '0', '0', hexDigitChar (c.toNat / 16), hexDigitChar (c.toNat % 16)]
  else [c]

/-- Escape every character of a string body. -/
def escapeChars : JStr → JStr
  | [] => []
  | c :: cs => escapeJsonChar c ++ escapeChars cs

/-- `JSON.stringify` of a string: quoted, escaped body. -/
def stringifyString (s : JStr) : JStr :=
  '"' :: (escapeChars s ++ ['"'])

/-- Comma-join pre-rendered fragments. -/
def joinComma : List JStr → JStr
  | [] => []
  | [x] => x
  | x :: xs => x ++ ',' :: joinComma xs

mutual

/-- `JSON.stringify` (no spacing argument, as in the store).  Numbers are
re-rendered from their lexical components; float re-formatting (e.g.
`1e21 → "1e+21"`) is not modelled — no claim stringifies numbers. -/
def stringifyJson : Json → JStr
  | .null => "null".toList
  | .bool true => "true".toList
  | .bool false => "false".toList
  | .num neg ip fp en ep =>
    (if neg then ['-'] else []) ++ ip ++
    (if fp = [] then [] else '.' :: fp) ++
    (if ep = [] then [] else 'e' :: ((if en then ['-'] else []) ++ ep))
  | .str s => stringifyString s
  | .arr l => '[' :: (joinComma (stringifyList l) ++ [']'])
  | .obj ms => Char.ofNat 123 :: (joinComma (stringifyMembers ms) ++ [Char.ofNat 125])

/-- Rendered array elements. -/
def stringifyList : List Json → List JStr
  | [] => []
  | v :: vs => stringifyJson v :: stringifyList vs

/-- Rendered object members. -/
def stringifyMembers : List (JStr × Json) → List JStr
  | [] => []
  | (k, v) :: ms => (stringifyString k ++ ':' :: stringifyJson v) :: stringifyMembers ms

end

/-! ## Token Codec: `AuthService.decodeTokenRoles` -/

/-- The long-form namespaced role claim key used by the backend. -/
def nsRoleKey : JStr :=
  "http://schemas.microsoft.com/ws/2008/06/identity/claims/role".toList

/-- The short `role` claim key. -/
def roleKey : JStr := "role".toList

/-- The short `roles` claim key. -/
def rolesKey : JStr := "roles".toList

/-- `String(undefined)`: `atob` stringifies a missing argument. -/
def undefinedStr : JStr := "undefined".toList

/-- Last-wins lookup of an object member, matching the object
`JSON.parse` builds when keys repeat. -/
def lookupLastMember (ms : List (JStr × Json)) (k : JStr) : Option Json :=
  match ms with
  | [] => none
  | (k', v) :: rest =>
    match lookupLastMember rest k with
    | some r => some r
    | none => if k' = k then some v else none

/-- JavaScript member access `payload[key]` on a parsed JSON value:
access on `null` throws a TypeError (`Except.error`), an object yields the
member (or `undefined`, i.e. `none`), and any other primitive or array has
no such property, yielding `undefined`. -/
def jsonMember : Json → JStr → Except Unit (Option Json)
  | .null, _ => .error ()
  | .obj ms, k => .ok (lookupLastMember ms k)
  | _, _ => .ok none

/-- JavaScript truthiness of a JSON value: `null`, `false`, the empty
string and zero are falsy; arrays and objects (even empty) are truthy.
A non-zero mantissa is treated as non-zero (float underflow such as
`1e-400` is not modelled — no claim involves numeric role claims). -/
def jsTruthy : Json → Bool
  | .null => false
  | .bool b => b
  | .str s => s ≠ []
  | .num _ ip fp _ _ => ¬ (ip.all (· = '0') ∧ fp.all (· = '0'))
  | .arr _ => true
  | .obj _ => true

/-- Keep a looked-up member only when it is truthy (the `if (x)` guards in
`decodeTokenRoles`). -/
def truthyVal : Option Json → Option Json
  | some j => if jsTruthy j then some j else none
  | none => none

/-- `Array.isArray(x) ? x : [x]`: normalize a role claim value to a list. -/
def normalizeRoles : Json → List Json
  | .arr l => l
  | v => [v]

/-- The `if / else if / else if` chain of `decodeTokenRoles`: the namespaced
key, then `role`, then `roles`, each guarded by truthiness of the member. -/
def rolesFromPayload (payload : Json) : Except Unit (List Json) :=
  match jsonMember payload nsRoleKey with
  | .error e => .error e
  | .ok v1 =>
    match truthyVal v1 with
    | some j => .ok (normalizeRoles j)
    | none =>
      match jsonMember payload roleKey with
      | .error e => .error e
      | .ok v2 =>
        match truthyVal v2 with
        | some j => .ok (normalizeRoles j)
        | none =>
          match jsonMember payload rolesKey with
          | .error e => .error e
          | .ok v3 =>
            match truthyVal v3 with
            | some j => .ok (normalizeRoles j)
            | none => .ok []

/-- `token.split('.')[1]`: the segment the code decodes — index 1 of the
split, with the JavaScript `undefined → "undefined"` string coercion
`atob` applies when the index is out of range. -/
def decodeSeg (token : JStr) : JStr :=
  match (jsSplit '.' token).get? 1 with
  | some s => s
  | none => undefinedStr

/-- `AuthService.decodeTokenRoles`: split on `.`, take the segment at index
1 (`undefined`, coerced to the string `"undefined"`, when absent), `atob`
it, `JSON.parse` the result, then extract the role claim; the enclosing
`try/catch` maps every thrown error to the empty list. -/
def decodeTokenRoles (token : JStr) : List Json :=
  match atobForgiving (decodeSeg token) with
  | none => []
  | some decoded =>
    match parseJson decoded with
    | none => []
    | some payload =>
      match rolesFromPayload payload with
      | .ok rs => rs
      | .error _ => []

/-! ## Session Store (`AuthStore`, the roles-aware revision) -/

/-- `AuthState` (src/unnamed/part_004).  The `roles` field is typed
`string[]` in TypeScript but is populated from `JSON.parse` output on
rehydration, so it is modelled as an arbitrary JSON value; `setAuth` always
stores an array. -/
structure AuthState where
  isAuthenticated : Bool
  token : Option JStr
  userId : Option JStr
  email : Option JStr
  roles : Json
deriving Repr

/-- `sessionStorage`, restricted to the four fixed keys the store ever
touches; `none` models an absent key (`getItem` returning `null`). -/
structure Storage where
  token : Option JStr
  userId : Option JStr
  email : Option JStr
  roles : Option JStr
deriving Repr, DecidableEq

/-- A storage with none of the session keys set. -/
def emptyStorage : Storage := ⟨none, none, none, none⟩

/-- JavaScript truthiness of a `string | null` value: `null` and the empty
string are falsy. -/
def truthyStr : Option JStr → Bool
  | none => false
  | some s => s ≠ []

namespace AuthStore

/-- The default empty, unauthenticated session. -/
def initialState : AuthState :=
  { isAuthenticated := false, token := none, userId := none, email := none
    roles := .arr [] }

/-- `saveToStorage`: writes the four keys only when token, userId and email
are all truthy; roles are persisted as their `JSON.stringify` rendering. -/
def saveToStorage (authState : AuthState) (st : Storage) : Storage :=
  if truthyStr authState.token && truthyStr authState.userId && truthyStr authState.email then
    { token := authState.token, userId := authState.userId, email := authState.email
      roles := some (stringifyJson authState.roles) }
  else st

/-- `setAuth`: publish a fully-authenticated state and persist it. -/
def setAuth (token userId email : JStr) (roles : List Json) (st : Storage) :
    AuthState × Storage :=
  let authState : AuthState :=
    { isAuthenticated := true, token := some token, userId := some userId
      email := some email, roles := .arr roles }
  (authState, saveToStorage authState st)

/-- `clearStorage`: remove the four session keys. -/
def clearStorage (_ : Storage) : Storage := emptyStorage

/-- `clearAuth`: publish the initial state and erase the persisted copy. -/
def clearAuth (_ : AuthState) (st : Storage) : AuthState × Storage :=
  (initialState, clearStorage st)

/-- `const roles = rolesJson ? JSON.parse(rolesJson) : [];` — the parse is
unguarded, so invalid persisted JSON throws (`Except.error`); a missing or
empty entry falls back to `[]`. -/
def loadRoles (st : Storage) : Except Unit Json :=
  match st.roles with
  | some rolesJson =>
    if rolesJson ≠ [] then
      match parseJson rolesJson with
      | some j => Except.ok j
      | none => Except.error ()
    else Except.ok (.arr [])
  | none => Except.ok (.arr [])

/-- `loadFromStorage`, run against the current subject value: reads the four
keys, computes the roles (which can throw, see `loadRoles`), then publishes
an authenticated state when token, userId and email are all truthy, and
otherwise leaves the subject value unchanged. -/
def loadFromStorage (st : Storage) (current : AuthState) : Except Unit AuthState :=
  match loadRoles st with
  | .error e => .error e
  | .ok roles =>
    if truthyStr st.token && truthyStr st.userId && truthyStr st.email then
      .ok { isAuthenticated := true, token := st.token, userId := st.userId
            email := st.email, roles := roles }
    else
      .ok current

/-- Store construction: the subject starts at `initialState`, then the
constructor runs `loadFromStorage`; a throw there escapes the constructor. -/
def constructStore (st : Storage) : Except Unit AuthState :=
  loadFromStorage st initialState

/-- `isAuthenticated()`. -/
def isAuthenticated (s : AuthState) : Bool := s.isAuthenticated

/-- `getToken()`. -/
def getToken (s : AuthState) : Option JStr := s.token

/-- `getRoles()`. -/
def getRoles (s : AuthState) : Json := s.roles

end AuthStore

/-- JavaScript `receiver.includes(x)` as used by `hasRole`: SameValueZero
membership on an array; substring containment on a string receiver; any
other receiver has no `includes` method — a TypeError, modelled as `none`. -/
def jsIncludes : Json → Json → Option Bool
  | .arr l, v => some (l.any (fun x => jsonEq x v))
  | .str s, .str needle => some (s.tails.any (fun t => needle.isPrefixOf t))
  | .str _, _ => none
  | _, _ => none

namespace AuthStore

/-- `hasRole(role)`: `this.authSubject.value.roles.includes(role)`. -/
def hasRole (s : AuthState) (role : JStr) : Option Bool :=
  jsIncludes s.roles (.str role)

end AuthStore

/-! ## Request Authenticator (`AuthInterceptor`) -/

/-- An outgoing HTTP request: a URL and its headers (other request parts
are never touched by the interceptor). -/
structure HttpRequest where
  url : JStr
  headers : List (JStr × JStr)
deriving Repr, DecidableEq

/-- An HTTP error response, as observed by `catchError`. -/
structure HttpErrorResponse where
  status : Int
deriving Repr, DecidableEq

/-- A successful HTTP event passed through the interceptor untouched. -/
structure HttpEvent where
  body : JStr
deriving Repr, DecidableEq

/-- The `Authorization` header name. -/
def authorizationKey : JStr := "Authorization".toList

/-- The bearer scheme prefix. -/
def bearerScheme : JStr := "Bearer ".toList

/-- The login route the interceptor navigates to. -/
def loginRoute : JStr := "/login".toList

/-- `req.clone({ setHeaders: { name: value } })`: the named header is set,
replacing any existing occurrence. -/
def setHeader (key value : JStr) (req : HttpRequest) : HttpRequest :=
  { req with headers := req.headers.filter (fun kv => kv.1 ≠ key) ++ [(key, value)] }

/-- Header lookup. -/
def getHeader (key : JStr) (req : HttpRequest) : Option JStr :=
  (req.headers.filter (fun kv => kv.1 = key)).head?.map Prod.snd

/-- Observable side effects of the interceptor's error branch. -/
inductive AuthEffect where
  | clearAuthCall
  | navigateCall (commands : List JStr)
deriving Repr, DecidableEq

/-- Request stage of `AuthInterceptor.intercept`: with a truthy store token
the request is cloned with a bearer `Authorization` header, otherwise it is
forwarded untouched. -/
def interceptRequest (token : Option JStr) (req : HttpRequest) : HttpRequest :=
  match token with
  | some t => if t ≠ [] then setHeader authorizationKey (bearerScheme ++ t) req else req
  | none => req

/-- Response stage (`catchError`): a 401 error triggers `clearAuth()` then
`router.navigate(['/login'])` and rethrows the same error; every other
outcome passes through with no effects. -/
def interceptResponse (response : Except HttpErrorResponse HttpEvent) :
    Except HttpErrorResponse HttpEvent × List AuthEffect :=
  match response with
  | .ok ev => (.ok ev, [])
  | .error e =>
    if e.status = 401 then (.error e, [.clearAuthCall, .navigateCall [loginRoute]])
    else (.error e, [])

/-- `AuthInterceptor.intercept`: forward the (possibly authenticated)
request to the next handler and post-process its outcome. -/
def intercept (token : Option JStr) (req : HttpRequest)
    (handler : HttpRequest → Except HttpErrorResponse HttpEvent) :
    Except HttpErrorResponse HttpEvent × List AuthEffect :=
  interceptResponse (handler (interceptRequest token req))

/-! ## Cart Store / Service -/

/-- `CartItem` (src/app/shared/models/cart.model.ts).  JavaScript numbers
are modelled as integers; every claim under verification uses integral
values only. -/
structure CartItem where
  id : JStr
  productId : JStr
  productName : JStr
  unitPrice : Int
  quantity : Int
  totalPrice : Int
deriving Repr, DecidableEq

/-- `Cart` (src/app/shared/models/cart.model.ts). -/
structure Cart where
  id : JStr
  userId : JStr
  items : List CartItem
  totalAmount : Int
deriving Repr, DecidableEq

/-- `AddCartItemRequest`. -/
structure AddCartItemRequest where
  productId : JStr
  quantity : Int
deriving Repr, DecidableEq

/-- `UpdateCartItemRequest`. -/
structure UpdateCartItemRequest where
  quantity : Int
deriving Repr, DecidableEq

/-- The HTTP calls the cart service can issue. -/
inductive CartRequest where
  | getCartReq
  | addItemReq (request : AddCartItemRequest)
  | updateItemReq (cartItemId : JStr) (request : UpdateCartItemRequest)
  | removeItemReq (cartItemId : JStr)
  | clearReq
deriving Repr, DecidableEq

namespace CartService

/-- `getCart`: `tap` adopts the server cart on success; an error leaves the
subject untouched. -/
def getCart (resp : Except HttpErrorResponse Cart) (st : Option Cart) : Option Cart :=
  match resp with
  | .ok cart => some cart
  | .error _ => st

/-- The single request `getCart` issues. -/
def getCartRequests : List CartRequest := [.getCartReq]

/-- `addToCart`: POST the item, adopt the returned cart on success. -/
def addToCart (_ : AddCartItemRequest) (resp : Except HttpErrorResponse Cart)
    (st : Option Cart) : Option Cart :=
  match resp with
  | .ok cart => some cart
  | .error _ => st

/-- The single request `addToCart` issues (issued once, also when the
response is an error — there is no retry). -/
def addToCartRequests (request : AddCartItemRequest) : List CartRequest :=
  [.addItemReq request]

/-- `updateCartItem`: PUT the quantity, adopt the returned cart on success. -/
def updateCartItem (_ : JStr) (_ : UpdateCartItemRequest)
    (resp : Except HttpErrorResponse Cart) (st : Option Cart) : Option Cart :=
  match resp with
  | .ok cart => some cart
  | .error _ => st

/-- The single request `updateCartItem` issues. -/
def updateCartItemRequests (cartItemId : JStr) (request : UpdateCartItemRequest) :
    List CartRequest :=
  [.updateItemReq cartItemId request]

/-- `removeCartItem`: the DELETE response carries no body and never touches
the subject itself; on success the `tap` re-issues `getCart`. -/
def removeCartItem (_ : Except HttpErrorResponse Unit) (st : Option Cart) : Option Cart :=
  st

/-- Requests issued by `removeCartItem`: the DELETE, plus the follow-up
`getCart` only on success. -/
def removeCartItemRequests (cartItemId : JStr) (resp : Except HttpErrorResponse Unit) :
    List CartRequest :=
  match resp with
  | .ok _ => [.removeItemReq cartItemId, .getCartReq]
  | .error _ => [.removeItemReq cartItemId]

/-- `clearCart`: on success the subject is set to `null` directly. -/
def clearCart (resp : Except HttpErrorResponse Unit) (st : Option Cart) : Option Cart :=
  match resp with
  | .ok _ => none
  | .error _ => st

/-- The single request `clearCart` issues. -/
def clearCartRequests : List CartRequest := [.clearReq]

/-- `getCartValue()`: synchronous read of the subject. -/
def getCartValue (st : Option Cart) : Option Cart := st

/-- `getCartItemCount()`: `cart ? cart.items.reduce((sum, item) =>
sum + item.quantity, 0) : 0` — a pure read of the subject value. -/
def getCartItemCount (st : Option Cart) : Int :=
  match st with
  | some cart => cart.items.foldl (fun sum item => sum + item.quantity) 0
  | none => 0

end CartService

namespace CartStore

/-- `CartStore.updateItemCount` (src/app/store/cart.store.ts): the derived
item count published on `itemCount$` (the `!cart.items` guard cannot fire
in the model, where `items` is always a list). -/
def updateItemCount (cart : Option Cart) : Int :=
  match cart with
  | none => 0
  | some c => c.items.foldl (fun sum item => sum + item.quantity) 0

end CartStore

/-! ## Spec-side definitions and the reachability machine -/

/-- Modelled from the spec: the role claim of a decoded payload object
looked up by *presence*, under the namespaced key, then `role`, then
`roles`, in that priority order — the lookup order the claim words state. -/
def specRoleClaim (members : List (JStr × Json)) : Option Json :=
  match lookupLastMember members nsRoleKey with
  | some v => some v
  | none =>
    match lookupLastMember members roleKey with
    | some v => some v
    | none => lookupLastMember members rolesKey

/-- Modelled from the spec (as amended): the role claim looked up by
*truthiness* — the first of the three keys whose value is truthy, matching
the `if (decodedPayload[key])` guards of the code. -/
def truthyRoleClaim (members : List (JStr × Json)) : Option Json :=
  match truthyVal (lookupLastMember members nsRoleKey) with
  | some v => some v
  | none =>
    match truthyVal (lookupLastMember members roleKey) with
    | some v => some v
    | none => truthyVal (lookupLastMember members rolesKey)

/-- One Session Store operation, as quantified over by the reachability
claim: a login (`setAuth`), a logout/401 (`clearAuth`), or a
construction-time rehydration over some storage content. -/
inductive AuthOp where
  | setAuthOp (token userId email : JStr) (roles : List Json)
  | clearAuthOp
  | loadOp (st : Storage)

/-- Apply one operation to the published state.  The state `setAuth`
publishes does not depend on the storage; a rehydration that throws leaves
the already-published value in place. -/
def authStep (s : AuthState) : AuthOp → AuthState
  | .setAuthOp t u e r => (AuthStore.setAuth t u e r emptyStorage).1
  | .clearAuthOp => (AuthStore.clearAuth s emptyStorage).1
  | .loadOp st =>
    match AuthStore.loadFromStorage st s with
    | .ok s' => s'
    | .error _ => s

/-- Run a sequence of Session Store operations from the initial state. -/
def runAuth (ops : List AuthOp) : AuthState :=
  ops.foldl authStep AuthStore.initialState

/-- The inductive invariant behind claim C10: an authenticated state holds
a non-null token, and the only reachable unauthenticated state is the
initial one. -/
def authInv (s : AuthState) : Prop :=
  (s.isAuthenticated = true → s.token ≠ none) ∧
  (s.isAuthenticated = false → s = AuthStore.initialState)

/-! ## Helper lemmas -/

/-- A left fold adding quantities equals the accumulator plus the sum. -/
theorem foldl_add_quantity (l : List CartItem) (n : Int) :
    l.foldl (fun sum item => sum + item.quantity) n = n + (l.map CartItem.quantity).sum := by
  induction l generalizing n with
  | nil => simp
  | cons h t ih => simp [List.foldl_cons, ih, add_assoc]

/-- Filtering for a key after filtering it away yields nothing. -/
theorem filter_key_after_ne (key : JStr) (hs : List (JStr × JStr)) :
    (hs.filter (fun kv => kv.1 ≠ key)).filter (fun kv => kv.1 = key) = [] := by
  induction hs with
  | nil => rfl
  | cons h t ih =>
    by_cases h1 : h.1 = key <;> simp [List.filter_cons, h1, ih]

/-- `setHeader` makes the header observable under its key. -/
theorem getHeader_setHeader (key value : JStr) (req : HttpRequest) :
    getHeader key (setHeader key value req) = some value := by
  unfold getHeader setHeader
  simp [List.filter_append, filter_key_after_ne]

/-! ## Claim theorems: interceptor and cart -/

/-- C2: for every outgoing request whose response is a 401 authorization
failure, the interceptor performs exactly one Session Store clear and
exactly one redirect-to-login navigation — whatever the request and
whoever issued it — and re-surfaces the original error to the caller. -/
theorem intercept_401_clears_once_and_rethrows
    (token : Option JStr) (req : HttpRequest)
    (handler : HttpRequest → Except HttpErrorResponse HttpEvent)
    (e : HttpErrorResponse)
    (hresp : handler (interceptRequest token req) = .error e)
    (h401 : e.status = 401) :
    (intercept token req handler).1 = .error e ∧
    (intercept token req handler).2.count .clearAuthCall = 1 ∧
    (intercept token req handler).2.count (.navigateCall [loginRoute]) = 1 := by
  unfold intercept
  rw [hresp]
  unfold interceptResponse
  simp [h401]

/-- Witness for C2 at a concrete 401-failing request. -/
theorem intercept_401_clears_once_and_rethrows_witness :
    (intercept none ⟨[], []⟩ (fun _ => .error ⟨401⟩)).1 = .error ⟨401⟩ ∧
    (intercept none ⟨[], []⟩ (fun _ => .error ⟨401⟩)).2.count .clearAuthCall = 1 ∧
    (intercept none ⟨[], []⟩ (fun _ => .error ⟨401⟩)).2.count (.navigateCall [loginRoute]) = 1 :=
  intercept_401_clears_once_and_rethrows none ⟨[], []⟩ (fun _ => .error ⟨401⟩) ⟨401⟩ rfl rfl

/-- C8: a request forwarded while the store holds a (non-empty) token gets
exactly that token as a bearer credential in the `Authorization` header and
is otherwise unchanged; with no token in the store the request is forwarded
unmodified. -/
theorem intercept_bearer_header (t : JStr) (req : HttpRequest) (ht : t ≠ []) :
    getHeader authorizationKey (interceptRequest (some t) req) = some (bearerScheme ++ t) ∧
    (interceptRequest (some t) req).url = req.url ∧
    interceptRequest none req = req := by
  refine ⟨?_, ?_, rfl⟩
  · unfold interceptRequest
    simp [ht, getHeader_setHeader]
  · unfold interceptRequest
    simp [ht, setHeader]

/-- Witness for C8 at a concrete token and request. -/
theorem intercept_bearer_header_witness :
    getHeader authorizationKey
        (interceptRequest (some ("tok".toList)) ⟨("/cart".toList), []⟩) =
      some (bearerScheme ++ ("tok".toList)) :=
  (intercept_bearer_header ("tok".toList) ⟨("/cart".toList), []⟩ (by decide)).1

/-- C5: every cart mutation whose HTTP call fails leaves the subject value
exactly as it was, and each mutation issues exactly one request (no retry). -/
theorem cart_mutation_error_leaves_value
    (e : HttpErrorResponse) (st : Option Cart) (r : AddCartItemRequest)
    (cid : JStr) (ur : UpdateCartItemRequest) :
    CartService.addToCart r (.error e) st = st ∧
    CartService.updateCartItem cid ur (.error e) st = st ∧
    CartService.removeCartItem (.error e) st = st ∧
    CartService.clearCart (.error e) st = st ∧
    (CartService.addToCartRequests r).length = 1 ∧
    (CartService.updateCartItemRequests cid ur).length = 1 ∧
    (CartService.removeCartItemRequests cid (.error e)).length = 1 ∧
    CartService.clearCartRequests.length = 1 :=
  ⟨rfl, rfl, rfl, rfl, rfl, rfl, rfl, rfl⟩

/-- C9: `getCartItemCount` is a pure read: the sum of line quantities on a
non-null cart, `0` on a null cart; the store-side `updateItemCount`
publishes the same number. -/
theorem getCartItemCount_is_quantity_sum :
    (∀ cart : Cart,
      CartService.getCartItemCount (some cart) = (cart.items.map CartItem.quantity).sum ∧
      CartStore.updateItemCount (some cart) = (cart.items.map CartItem.quantity).sum) ∧
    CartService.getCartItemCount none = 0 ∧
    CartStore.updateItemCount none = 0 := by
  refine ⟨fun cart => ⟨?_, ?_⟩, rfl, rfl⟩ <;>
    simp [CartService.getCartItemCount, CartStore.updateItemCount, foldl_add_quantity]

/-! ## Claim theorems: Session Store clear and reachability invariant -/

/-- C7: after `clearAuth` the store is unauthenticated, the published
session is the empty default, and none of the four session keys remains in
storage. -/
theorem clearAuth_resets_everything (s : AuthState) (st : Storage) :
    AuthStore.isAuthenticated (AuthStore.clearAuth s st).1 = false ∧
    (AuthStore.clearAuth s st).1 = AuthStore.initialState ∧
    (AuthStore.clearAuth s st).2.token = none ∧
    (AuthStore.clearAuth s st).2.userId = none ∧
    (AuthStore.clearAuth s st).2.email = none ∧
    (AuthStore.clearAuth s st).2.roles = none :=
  ⟨rfl, rfl, rfl, rfl, rfl, rfl⟩

/-- One step preserves the session invariant. -/
theorem authStep_preserves_inv (s : AuthState) (h : authInv s) (op : AuthOp) :
    authInv (authStep s op) := by
  cases op with
  | setAuthOp t u e r =>
    exact ⟨fun _ => by simp [authStep, AuthStore.setAuth], fun hfalse => by
      simp [authStep, AuthStore.setAuth] at hfalse⟩
  | clearAuthOp =>
    exact ⟨fun htrue => by simp [authStep, AuthStore.clearAuth, AuthStore.initialState,
      AuthStore.clearStorage] at htrue, fun _ => rfl⟩
  | loadOp st =>
    show authInv (match AuthStore.loadFromStorage st s with
                  | .ok s' => s'
                  | .error _ => s)
    cases hlr : AuthStore.loadRoles st with
    | error e =>
      simp only [AuthStore.loadFromStorage, hlr]
      exact h
    | ok roles =>
      by_cases hg : (truthyStr st.token && truthyStr st.userId && truthyStr st.email) = true
      · simp only [AuthStore.loadFromStorage, hlr, hg, if_true]
        refine ⟨fun _ => ?_, fun hfalse => by simp at hfalse⟩
        have h1 : truthyStr st.token = true := by
          cases h2 : truthyStr st.token
          · rw [h2] at hg; simp at hg
          · rfl
        cases h3 : st.token with
        | none => rw [h3] at h1; simp [truthyStr] at h1
        | some l => simp [h3]
      · simp only [AuthStore.loadFromStorage, hlr, if_neg hg]
        exact h

/-- C10: in every Session Store state reachable by any sequence of
`setAuth`, `clearAuth` and construction-time rehydration, the store is
authenticated exactly when the token is non-null; consequently an
unauthenticated state carries the empty role set and `hasRole` is false for
every role. -/
theorem runAuth_isAuthenticated_iff_token (ops : List AuthOp) :
    ((runAuth ops).isAuthenticated = true ↔ (runAuth ops).token ≠ none) ∧
    ((runAuth ops).isAuthenticated = false →
      (runAuth ops).roles = Json.arr [] ∧
      ∀ r : JStr, AuthStore.hasRole (runAuth ops) r = some false) := by
  have hinv : authInv (runAuth ops) := by
    unfold runAuth
    have base : authInv AuthStore.initialState :=
      ⟨fun htrue => by simp [AuthStore.initialState] at htrue, fun _ => rfl⟩
    generalize AuthStore.initialState = s0 at base ⊢
    induction ops generalizing s0 with
    | nil => exact base
    | cons op rest ih =>
      exact ih (authStep s0 op) (authStep_preserves_inv s0 base op)
  obtain ⟨h1, h2⟩ := hinv
  refine ⟨⟨h1, fun hne => ?_⟩, fun hfalse => ?_⟩
  · cases hb : (runAuth ops).isAuthenticated with
    | true => rfl
    | false => exact absurd (congrArg AuthState.token (h2 hb)) hne
  · rw [h2 hfalse]
    exact ⟨rfl, fun r => rfl⟩

/-- Witness for C10: after a logout step the reachable state has no roles
and a null token. -/
theorem runAuth_isAuthenticated_iff_token_witness :
    (runAuth [AuthOp.clearAuthOp]).roles = Json.arr [] ∧
    AuthStore.hasRole (runAuth [AuthOp.clearAuthOp]) ("Admin".toList) = some false :=
  ⟨((runAuth_isAuthenticated_iff_token [AuthOp.clearAuthOp]).2 rfl).1,
   ((runAuth_isAuthenticated_iff_token [AuthOp.clearAuthOp]).2 rfl).2 ("Admin".toList)⟩

/-! ## Lemmas on splitting and base64 -/

/-- Splitting a separator-free prefix peels it off whole. -/
theorem jsSplit_append_sep (sep : Char) (hd rest : JStr) (h : sep ∉ hd) :
    jsSplit sep (hd ++ sep :: rest) = hd :: jsSplit sep rest := by
  induction hd with
  | nil => simp [jsSplit]
  | cons c cs ih =>
    simp only [List.cons_append, jsSplit, List.append_eq]
    have hc : ¬ c = sep := fun he => h (he ▸ List.mem_cons_self c cs)
    rw [if_neg hc, ih (fun hm => h (List.mem_cons_of_mem c hm))]

/-- A separator-free string splits into itself alone. -/
theorem jsSplit_no_sep (sep : Char) (s : JStr) (h : sep ∉ s) :
    jsSplit sep s = [s] := by
  induction s with
  | nil => rfl
  | cons c cs ih =>
    simp only [jsSplit]
    have hc : ¬ c = sep := fun he => h (he ▸ List.mem_cons_self c cs)
    rw [if_neg hc, ih (fun hm => h (List.mem_cons_of_mem c hm))]

/-- `mapOption` fails as soon as one element fails. -/
theorem mapOption_none_of_mem {α β : Type} (f : α → Option β) (l : List α) (x : α)
    (hx : x ∈ l) (hf : f x = none) : mapOption f l = none := by
  induction l with
  | nil => cases hx
  | cons a t ih =>
    rcases List.mem_cons.mp hx with h1 | h2
    · subst h1
      unfold mapOption
      rw [hf]
    · unfold mapOption
      rw [ih h2]
      cases hfa : f a <;> rfl

/-- Stripping base64 padding removes only `=` characters. -/
theorem mem_b64StripPadding (x : Char) (data : JStr) (hx : x ∈ data) (hne : x ≠ '=') :
    x ∈ b64StripPadding data := by
  unfold b64StripPadding
  split
  · split
    · next rest heq =>
      rw [List.mem_reverse]
      have hrev : x ∈ data.reverse := List.mem_reverse.mpr hx
      rw [heq] at hrev
      simp only [List.mem_cons] at hrev
      rcases hrev with h | h | h
      · exact absurd h hne
      · exact absurd h hne
      · exact h
    · next rest heq =>
      rw [List.mem_reverse]
      have hrev : x ∈ data.reverse := List.mem_reverse.mpr hx
      rw [heq] at hrev
      simp only [List.mem_cons] at hrev
      rcases hrev with h | h
      · exact absurd h hne
      · exact h
    · exact hx
  · exact hx

/-- A successfully `atob`-decoded segment cannot contain a dot. -/
theorem atob_some_no_dot (m p : JStr) (hm : atobForgiving m = some p) :
    '.' ∉ m := by
  intro hdot
  unfold atobForgiving b64DecodeCore at hm
  have hdot1 : '.' ∈ m.filter (fun c => !isB64Ws c) :=
    List.mem_filter.mpr ⟨hdot, by decide⟩
  have hdot2 : '.' ∈ b64StripPadding (m.filter (fun c => !isB64Ws c)) :=
    mem_b64StripPadding _ _ hdot1 (by decide)
  have hnone : mapOption b64Val (b64StripPadding (m.filter (fun c => !isB64Ws c))) = none :=
    mapOption_none_of_mem _ _ _ hdot2 (by decide)
  by_cases hlen : (b64StripPadding (m.filter (fun c => !isB64Ws c))).length % 4 = 1
  · rw [if_pos hlen] at hm
    exact Option.noConfusion hm
  · rw [if_neg hlen, hnone] at hm
    exact Option.noConfusion hm

/-- On an object payload the role-claim chain of the code computes exactly
the truthiness-priority claim value, normalized. -/
theorem rolesFromPayload_obj (members : List (JStr × Json)) :
    rolesFromPayload (.obj members) =
      .ok (match truthyRoleClaim members with
           | some v => normalizeRoles v
           | none => []) := by
  unfold rolesFromPayload truthyRoleClaim
  simp only [jsonMember]
  cases h1 : truthyVal (lookupLastMember members nsRoleKey) with
  | some j => rfl
  | none =>
    cases h2 : truthyVal (lookupLastMember members roleKey) with
    | some j => rfl
    | none =>
      cases h3 : truthyVal (lookupLastMember members rolesKey) <;> rfl

/-! ## Claim theorems: Token Codec -/

/-- C1 (amended): for a three-segment token whose middle segment is valid
forgiving base64 (in particular, base64url segments free of `-` and `_`)
decoding to a JSON object, and whose role claim — looked up under the
namespaced key, then `role`, then `roles`, each by truthiness — is a
(non-empty) string or a list of strings, `decodeTokenRoles` returns exactly
the roles present, case-preserved: a single string as a one-element list, a
list as itself. -/
theorem decodeTokenRoles_exact_roles
    (hseg mid sseg payload : JStr) (members : List (JStr × Json)) (v : Json)
    (hh : '.' ∉ hseg) (hs : '.' ∉ sseg)
    (hmid : atobForgiving mid = some payload)
    (hp : parseJson payload = some (.obj members))
    (hv : truthyRoleClaim members = some v)
    (_hform : (∃ r : JStr, v = .str r) ∨
             (∃ l : List Json, v = .arr l ∧ ∀ x ∈ l, ∃ rs : JStr, x = .str rs)) :
    decodeTokenRoles (hseg ++ '.' :: (mid ++ '.' :: sseg)) = normalizeRoles v := by
  have hmdot : '.' ∉ mid := atob_some_no_dot mid payload hmid
  unfold decodeTokenRoles decodeSeg
  rw [jsSplit_append_sep _ _ _ hh, jsSplit_append_sep _ _ _ hmdot,
    jsSplit_no_sep _ _ hs]
  simp only [List.get?_cons_succ, List.get?_cons_zero, hmid, hp,
    rolesFromPayload_obj, hv]

/-- Witness for C1 (amended): a concrete valid token carrying
`{"role":"Admin"}`. -/
theorem decodeTokenRoles_exact_roles_witness :
    decodeTokenRoles (("x".toList) ++ '.' ::
        (("eyJyb2xlIjoiQWRtaW4ifQ".toList) ++ '.' :: ("y".toList))) =
      normalizeRoles (.str ("Admin".toList)) :=
  decodeTokenRoles_exact_roles ("x".toList) ("eyJyb2xlIjoiQWRtaW4ifQ".toList)
    ("y".toList)
    (stringifyJson (Json.obj [(roleKey, Json.str ("Admin".toList))]))
    [(roleKey, Json.str ("Admin".toList))] (.str ("Admin".toList))
    (by decide) (by decide) (by rfl) (by rfl) (by rfl)
    (Or.inl ⟨("Admin".toList), rfl⟩)

/-- The C1 counterexample payload object, `{"role":"Ad?min"}`. -/
def cexPayloadObj : Json := .obj [(roleKey, .str ("Ad?min".toList))]

/-- Its base64url encoding — which contains `_`, a character `atob`
rejects. -/
def cexMid : JStr := "eyJyb2xlIjoiQWQ_bWluIn0".toList

/-- The C1 counterexample token: three dot-separated segments, the middle
being `cexMid`. -/
def cexToken : JStr := ("x".toList) ++ '.' :: (cexMid ++ '.' :: ("y".toList))

/-- C1 counterexample: `cexToken` has three segments, its middle segment is
base64url-encoded JSON whose decoded object carries the role claim
`"Ad?min"` under `role` (by presence-priority lookup, per the claim), yet
`decodeTokenRoles` returns the empty set — because the code decodes with
`atob`, which rejects the base64url alphabet characters `-` and `_`. -/
theorem decodeTokenRoles_base64url_counterexample :
    (jsSplit '.' cexToken).length = 3 ∧
    specBase64urlDecode cexMid = some (stringifyJson cexPayloadObj) ∧
    parseJson (stringifyJson cexPayloadObj) = some cexPayloadObj ∧
    specRoleClaim [(roleKey, Json.str ("Ad?min".toList))] =
      some (.str ("Ad?min".toList)) ∧
    decodeTokenRoles cexToken = [] :=
  ⟨rfl, rfl, rfl, rfl, rfl⟩

/-- The decode-failure conditions of C4 (amended): the segment at index 1
(or the coerced string `"undefined"` when it is missing) is not valid
forgiving base64, or the decoded payload is not valid JSON, or the payload
is JSON `null` (so the member access throws). -/
def decodeFailure (token : JStr) : Prop :=
  (atobForgiving (decodeSeg token) = none) ∨
  (∃ cs, atobForgiving (decodeSeg token) = some cs ∧ parseJson cs = none) ∨
  (∃ cs p, atobForgiving (decodeSeg token) = some cs ∧ parseJson cs = some p ∧
    rolesFromPayload p = .error ())

/-- C4 (amended): whenever the decode pipeline fails — invalid base64 at
segment index 1, invalid JSON, or a throwing member access — the
`try/catch` makes `decodeTokenRoles` return the empty set (and, being a
total function of its input in this model, it never throws).  The segment
count itself is not validated, see the counterexample. -/
theorem decodeTokenRoles_failure_empty (token : JStr) (hfail : decodeFailure token) :
    decodeTokenRoles token = [] := by
  unfold decodeTokenRoles
  unfold decodeFailure at hfail
  rcases hfail with h | ⟨cs, h1, h2⟩ | ⟨cs, p, h1, h2, h3⟩
  · simp only [h]
  · simp only [h1, h2]
  · simp only [h1, h2, h3]

/-- Witness for C4 (amended): a one-segment token, whose missing index-1
segment is coerced to `"undefined"` — not valid base64. -/
theorem decodeTokenRoles_failure_empty_witness :
    decodeFailure ("abc".toList) ∧ decodeTokenRoles ("abc".toList) = [] :=
  ⟨Or.inl rfl, decodeTokenRoles_failure_empty ("abc".toList) (Or.inl rfl)⟩

/-- The C4 counterexample: a two-segment token whose second segment is
valid (standard) base64 JSON with a role claim. -/
def twoSegToken : JStr := "x.eyJyb2xlIjoiQWRtaW4ifQ".toList

/-- C4 counterexample: an input without three segments (here: two) for
which `decodeTokenRoles` returns `["Admin"]`, not the empty set — the code
never validates the number of segments, it merely indexes segment 1. -/
theorem decodeTokenRoles_two_segments_counterexample :
    (jsSplit '.' twoSegToken).length = 2 ∧
    decodeTokenRoles twoSegToken = [Json.str ("Admin".toList)] :=
  ⟨rfl, rfl⟩

/-! ## Round trip: `JSON.parse` inverts `JSON.stringify` on string arrays -/

/-- Hexadecimal digits round-trip. -/
theorem hexVal_hexDigitChar (m : Nat) (hm : m < 16) :
    hexVal (hexDigitChar m) = some m := by
  interval_cases m <;> rfl

/-- String-literal round trip: parsing an escaped body (with its closing
quote) recovers the original string. -/
theorem parseStringBody_escapeChars (s rest : JStr) :
    parseStringBody (escapeChars s ++ '"' :: rest) = some (s, rest) := by
  induction s with
  | nil => rfl
  | cons c cs ih =>
    have hstep : escapeChars (c :: cs) ++ '"' :: rest =
        escapeJsonChar c ++ (escapeChars cs ++ '"' :: rest) := by
      simp [escapeChars, List.append_assoc]
    rw [hstep]
    by_cases h1 : c = '"'
    · subst h1
      simp [escapeJsonChar, parseStringBody, escCharVal, ih]
    by_cases h2 : c = '\\'
    · subst h2
      simp [escapeJsonChar, parseStringBody, escCharVal, ih]
    by_cases h3 : c.toNat = 8
    · have hc : c = Char.ofNat 8 := by rw [← h3, Char.ofNat_toNat]
      rw [hc]
      simp [escapeJsonChar, parseStringBody, escCharVal, ih]
    by_cases h4 : c.toNat = 9
    · have hc : c = Char.ofNat 9 := by rw [← h4, Char.ofNat_toNat]
      rw [hc]
      simp [escapeJsonChar, parseStringBody, escCharVal, ih]
    by_cases h5 : c.toNat = 10
    · have hc : c = Char.ofNat 10 := by rw [← h5, Char.ofNat_toNat]
      rw [hc]
      simp [escapeJsonChar, parseStringBody, escCharVal, ih]
    by_cases h6 : c.toNat = 12
    · have hc : c = Char.ofNat 12 := by rw [← h6, Char.ofNat_toNat]
      rw [hc]
      simp [escapeJsonChar, parseStringBody, escCharVal, ih]
    by_cases h7 : c.toNat = 13
    · have hc : c = Char.ofNat 13 := by rw [← h7, Char.ofNat_toNat]
      rw [hc]
      simp [escapeJsonChar, parseStringBody, escCharVal, ih]
    by_cases h8 : c.toNat < 32
    · have hd1 : hexVal (hexDigitChar (c.toNat / 16)) = some (c.toNat / 16) :=
        hexVal_hexDigitChar _ (by omega)
      have hd2 : hexVal (hexDigitChar (c.toNat % 16)) = some (c.toNat % 16) :=
        hexVal_hexDigitChar _ (by omega)
      have hn : 0 * 4096 + 0 * 256 + c.toNat / 16 * 16 + c.toNat % 16 = c.toNat := by
        omega
      have hn2 : c.toNat / 16 * 16 + c.toNat % 16 = c.toNat := by omega
      have h00 : hexVal '0' = some 0 := rfl
      simp [escapeJsonChar, h1, h2, h3, h4, h5, h6, h7, h8, parseStringBody,
        h00, hd1, hd2, hn, hn2, show c.toNat < 55296 by omega, Char.ofNat_toNat, ih]
    · simp [escapeJsonChar, h1, h2, h3, h4, h5, h6, h7, h8]
      simp [parseStringBody, h1, h2, h8, ih]

/-- Rendering a list of JSON strings renders each string. -/
theorem stringifyList_map_str (R : List JStr) :
    stringifyList (R.map Json.str) = R.map stringifyString := by
  induction R with
  | nil => rfl
  | cons r t ih => simp [stringifyList, stringifyJson, ih]

/-- `parseValue` recovers a rendered string literal. -/
theorem parseValue_stringifyString (fuel : Nat) (hf : 1 ≤ fuel) (r rest : JStr) :
    parseValue fuel (stringifyString r ++ rest) = some (.str r, rest) := by
  cases fuel with
  | zero => omega
  | succ f =>
    have h : stringifyString r ++ rest = '"' :: (escapeChars r ++ '"' :: rest) := by
      simp [stringifyString]
    rw [h]
    simp [parseValue, dropWs, List.dropWhile, isJsonWs, parseStringBody_escapeChars]

/-- `parseElems` recovers the comma-joined elements of a non-empty rendered
string array, given fuel at least one more than the element count. -/
theorem parseElems_strings (R : List JStr) (rest : JStr) (fuel : Nat)
    (hR : R ≠ []) (hfuel : R.length + 1 ≤ fuel) :
    parseElems fuel (joinComma (R.map stringifyString) ++ ']' :: rest) =
      some (R.map Json.str, rest) := by
  induction R generalizing fuel rest with
  | nil => exact absurd rfl hR
  | cons r R' ih =>
    cases fuel with
    | zero => simp at hfuel
    | succ f =>
      have hf1 : 1 ≤ f := by
        simp [List.length_cons] at hfuel
        omega
      cases R' with
      | nil =>
        simp only [List.map_cons, List.map_nil, joinComma]
        simp [parseElems, parseValue_stringifyString f hf1, dropWs,
          List.dropWhile, isJsonWs]
      | cons r2 R'' =>
        have hjoin : joinComma ((r :: r2 :: R'').map stringifyString) ++ ']' :: rest =
            stringifyString r ++
              (',' :: (joinComma ((r2 :: R'').map stringifyString) ++ ']' :: rest)) := by
          simp [joinComma, List.append_assoc]
        rw [hjoin]
        have hih := ih rest f (by simp) (by simp [List.length_cons] at hfuel ⊢; omega)
        simp only [List.map_cons] at hih
        simp [parseElems, parseValue_stringifyString f hf1, dropWs,
          List.dropWhile, isJsonWs, hih]

/-- Element count is bounded by the rendered length plus one. -/
theorem length_le_joinComma_strings (R : List JStr) :
    R.length ≤ (joinComma (R.map stringifyString)).length + 1 := by
  induction R with
  | nil => simp
  | cons r R' ih =>
    cases R' with
    | nil => simp [joinComma]
    | cons r2 R'' =>
      simp only [List.map_cons, joinComma, List.length_append, List.length_cons] at *
      omega

/-- `dropWs` keeps a non-whitespace head in place. -/
theorem dropWs_cons_notWs (c : Char) (l : JStr) (h : isJsonWs c = false) :
    dropWs (c :: l) = c :: l := by
  simp [dropWs, List.dropWhile_cons, h]

/-- `parseValue` recovers a rendered array of strings, given fuel at least
two more than the element count. -/
theorem parseValue_stringify_str_arr (R : List JStr) (fuel : Nat) (rest : JStr)
    (hfuel : R.length + 2 ≤ fuel) :
    parseValue fuel (stringifyJson (.arr (R.map Json.str)) ++ rest) =
      some (.arr (R.map Json.str), rest) := by
  cases fuel with
  | zero => omega
  | succ f =>
    cases R with
    | nil =>
      have h0 : stringifyJson (.arr (([] : List JStr).map Json.str)) ++ rest =
          '[' :: ']' :: rest := by
        simp [stringifyJson, stringifyList, joinComma]
      rw [h0]
      simp [parseValue, dropWs_cons_notWs '[' (']' :: rest) (by decide),
        dropWs_cons_notWs ']' rest (by decide)]
    | cons r R' =>
      have hbody : stringifyJson (.arr ((r :: R').map Json.str)) ++ rest =
          '[' :: (joinComma ((r :: R').map stringifyString) ++ ']' :: rest) := by
        rw [show stringifyJson (.arr ((r :: R').map Json.str)) =
          '[' :: (joinComma (stringifyList ((r :: R').map Json.str)) ++ [']']) from rfl,
          stringifyList_map_str]
        simp [List.append_assoc]
      rw [hbody]
      have hW : ∃ W, joinComma ((r :: R').map stringifyString) ++ ']' :: rest =
          '"' :: W := by
        cases R' with
        | nil =>
          exact ⟨(escapeChars r ++ ['"']) ++ ']' :: rest,
            by simp [joinComma, stringifyString]⟩
        | cons r2 R'' =>
          exact ⟨(escapeChars r ++ ['"']) ++
              (',' :: (joinComma ((r2 :: R'').map stringifyString) ++ ']' :: rest)),
            by simp [joinComma, stringifyString, List.append_assoc]⟩
      obtain ⟨W, hWeq⟩ := hW
      have hscrut : dropWs (joinComma ((r :: R').map stringifyString) ++ ']' :: rest) =
          '"' :: W := by
        rw [hWeq]
        exact dropWs_cons_notWs '"' W (by decide)
      have helems := parseElems_strings (r :: R') rest f (by simp)
        (by simp only [List.length_cons] at hfuel ⊢; omega)
      simp only [List.map_cons] at hscrut helems
      have hdw1 := dropWs_cons_notWs '['
        (joinComma (stringifyString r :: R'.map stringifyString) ++ ']' :: rest)
        (by decide)
      simp [parseValue, hdw1, hscrut, helems]

/-- The round trip behind persisted roles: `JSON.parse` recovers a
`JSON.stringify`-rendered array of strings exactly. -/
theorem parseJson_stringify_str_arr (R : List JStr) :
    parseJson (stringifyJson (.arr (R.map Json.str))) = some (.arr (R.map Json.str)) := by
  unfold parseJson
  have hlen : R.length + 2 ≤ (stringifyJson (.arr (R.map Json.str))).length + 1 := by
    have hb := length_le_joinComma_strings R
    simp [stringifyJson, stringifyList_map_str, List.length_append]
    omega
  have h := parseValue_stringify_str_arr R _ [] hlen
  rw [List.append_nil] at h
  rw [h]
  rfl

/-! ## Claim theorems: Session Store set/rehydrate -/

/-- Membership of a string in a string array under `jsonEq`. -/
theorem any_jsonEq_str (R : List JStr) (role : JStr) :
    (R.map Json.str).any (fun x => jsonEq x (.str role)) = decide (role ∈ R) := by
  induction R with
  | nil => rfl
  | cons a t ih =>
    simp only [List.map_cons, List.any_cons, ih]
    have h1 : jsonEq (.str a) (.str role) = (a == role) := rfl
    rw [h1]
    by_cases h : a = role
    · simp [h, List.mem_cons]
    · have h2 : ¬ role = a := fun hr => h hr.symm
      simp [h, h2, List.mem_cons]

/-- C3: after `setAuth` with non-empty token, userId and email, the store
is authenticated, `hasRole` answers `true` exactly on the given role set,
and a fresh store constructed over the persisted storage rehydrates to the
identical session, roles included. -/
theorem setAuth_session_and_rehydration
    (t u e : JStr) (R : List JStr) (st0 : Storage)
    (ht : t ≠ []) (hu : u ≠ []) (he : e ≠ []) :
    AuthStore.isAuthenticated (AuthStore.setAuth t u e (R.map .str) st0).1 = true ∧
    (∀ role : JStr, role ∈ R →
      AuthStore.hasRole (AuthStore.setAuth t u e (R.map .str) st0).1 role = some true) ∧
    (∀ role : JStr, role ∉ R →
      AuthStore.hasRole (AuthStore.setAuth t u e (R.map .str) st0).1 role = some false) ∧
    AuthStore.constructStore (AuthStore.setAuth t u e (R.map .str) st0).2 =
      .ok (AuthStore.setAuth t u e (R.map .str) st0).1 := by
  refine ⟨rfl, ?_, ?_, ?_⟩
  · intro role hrole
    show jsIncludes (.arr (R.map .str)) (.str role) = some true
    simp [jsIncludes, any_jsonEq_str, hrole]
  · intro role hrole
    show jsIncludes (.arr (R.map .str)) (.str role) = some false
    simp [jsIncludes, any_jsonEq_str, hrole]
  · have hsave : (AuthStore.setAuth t u e (R.map .str) st0).2 =
        { token := some t, userId := some u, email := some e
          roles := some (stringifyJson (.arr (R.map .str))) } := by
      simp [AuthStore.setAuth, AuthStore.saveToStorage, truthyStr, ht, hu, he]
    rw [hsave]
    have hroles_ne : stringifyJson (.arr (R.map Json.str)) ≠ [] := by
      rw [show stringifyJson (.arr (R.map Json.str)) =
        '[' :: (joinComma (stringifyList (R.map Json.str)) ++ [']']) from rfl]
      simp
    simp [AuthStore.constructStore, AuthStore.loadFromStorage, AuthStore.loadRoles,
      hroles_ne, parseJson_stringify_str_arr, truthyStr, ht, hu, he, AuthStore.setAuth]

/-- Witness for C3 at `setAuth("t","u","e",{"Admin"})`: `hasRole("Admin")`
is true, `hasRole("User")` is false, and rehydration reproduces the
session. -/
theorem setAuth_session_and_rehydration_witness :
    AuthStore.hasRole (AuthStore.setAuth ("t".toList) ("u".toList) ("e".toList)
        ([("Admin".toList)].map Json.str) emptyStorage).1 ("Admin".toList) = some true ∧
    AuthStore.hasRole (AuthStore.setAuth ("t".toList) ("u".toList) ("e".toList)
        ([("Admin".toList)].map Json.str) emptyStorage).1 ("User".toList) = some false ∧
    AuthStore.constructStore (AuthStore.setAuth ("t".toList) ("u".toList) ("e".toList)
        ([("Admin".toList)].map Json.str) emptyStorage).2 =
      .ok (AuthStore.setAuth ("t".toList) ("u".toList) ("e".toList)
        ([("Admin".toList)].map Json.str) emptyStorage).1 := by
  have h := setAuth_session_and_rehydration ("t".toList) ("u".toList) ("e".toList)
    [("Admin".toList)] emptyStorage (by decide) (by decide) (by decide)
  exact ⟨h.2.1 ("Admin".toList) (by simp), h.2.2.1 ("User".toList) (by simp),
    h.2.2.2⟩

/-- C6 (amended): at construction, when the persisted roles entry is
absent, empty, or valid JSON, the store publishes the authenticated session
with the persisted fields if token, userId and email are all present and
non-empty, and exactly the default empty session otherwise — never a
half-authenticated one.  (A present, non-empty, *invalid* roles entry
instead throws out of the constructor, see the counterexample.) -/
theorem constructStore_full_or_default (st : Storage)
    (hroles : st.roles = none ∨ st.roles = some [] ∨
      ∃ rolesJson parsed, st.roles = some rolesJson ∧ parseJson rolesJson = some parsed) :
    ((truthyStr st.token && truthyStr st.userId && truthyStr st.email) = true →
      ∃ roles, AuthStore.constructStore st =
        .ok { isAuthenticated := true, token := st.token, userId := st.userId
              email := st.email, roles := roles }) ∧
    ((truthyStr st.token && truthyStr st.userId && truthyStr st.email) = false →
      AuthStore.constructStore st = .ok AuthStore.initialState) := by
  have hok : ∃ roles, AuthStore.loadRoles st = .ok roles := by
    rcases hroles with h | h | ⟨rj, p, h1, h2⟩
    · exact ⟨.arr [], by simp [AuthStore.loadRoles, h]⟩
    · exact ⟨.arr [], by simp [AuthStore.loadRoles, h]⟩
    · have hne : rj ≠ [] := by
        intro hnil
        rw [hnil] at h2
        exact Option.noConfusion h2
      exact ⟨p, by simp [AuthStore.loadRoles, h1, hne, h2]⟩
  obtain ⟨roles, hok⟩ := hok
  constructor
  · intro hg
    exact ⟨roles, by simp [AuthStore.constructStore, AuthStore.loadFromStorage, hok, hg]⟩
  · intro hg
    simp [AuthStore.constructStore, AuthStore.loadFromStorage, hok, hg]

/-- Witness for C6 (amended): empty storage rehydrates to the default
session. -/
theorem constructStore_full_or_default_witness :
    AuthStore.constructStore emptyStorage = .ok AuthStore.initialState :=
  (constructStore_full_or_default emptyStorage (Or.inl rfl)).2 rfl

/-- Storage with all three identity fields present but a corrupt
(non-JSON) roles entry. -/
def corruptStorage : Storage :=
  { token := some ("t".toList), userId := some ("u".toList)
    email := some ("e".toList), roles := some ("[".toList) }

/-- C6 counterexample: on `corruptStorage` the constructor neither
publishes an authenticated session nor the default one — the unguarded
`JSON.parse` of the corrupt roles entry throws out of the constructor. -/
theorem constructStore_corrupt_roles_counterexample :
    AuthStore.constructStore corruptStorage = .error () := rfl
